import Mathlib

/-!
Verification of the in-memory key-value store (Go, SojebSikder/go-in-memory-database).

The development shallowly embeds the keyspace engine of `internal/handler.go`:
the string store `SETs`, the hash store `HSETs` and the expiration index
`Expirations` become explicit association lists threaded through every
handler, and the wall clock (`time.Now().Unix()`) becomes an explicit `now`
parameter.  Go's 64-bit integer semantics (`strconv.ParseInt(_, 10, 64)`,
`strconv.Atoi`, wrapping `int64` arithmetic) are modelled exactly with
`Int` plus an explicit reduction modulo `2 ^ 64`.
-/

set_option maxHeartbeats 1000000
set_option linter.unusedVariables false
set_option linter.unnecessarySimpa false

namespace GoKV

/-- The Go `Value` struct: a tagged record with a `typ` discriminator and
one field per payload kind (unused fields keep their Go zero values). -/
inductive Value where
  | mk (typ : String) (str : String) (num : Int) (bulk : String) (array : List Value)
deriving Repr

/-- Field `typ` of the Go `Value` struct. -/
def Value.typ : Value → String
  | .mk t _ _ _ _ => t

/-- Field `str` of the Go `Value` struct. -/
def Value.str : Value → String
  | .mk _ s _ _ _ => s

/-- Field `num` of the Go `Value` struct. -/
def Value.num : Value → Int
  | .mk _ _ n _ _ => n

/-- Field `bulk` of the Go `Value` struct. -/
def Value.bulk : Value → String
  | .mk _ _ _ b _ => b

/-- Field `array` of the Go `Value` struct. -/
def Value.array : Value → List Value
  | .mk _ _ _ _ a => a

/-- Go composite literal `Value{typ: "string", str: s}`. -/
def strVal (s : String) : Value := .mk "string" s 0 "" []

/-- Go composite literal `Value{typ: "error", str: s}`. -/
def errVal (s : String) : Value := .mk "error" s 0 "" []

/-- Go composite literal `Value{typ: "integer", num: n}`. -/
def intVal (n : Int) : Value := .mk "integer" "" n "" []

/-- Go composite literal `Value{typ: "bulk", bulk: b}`. -/
def bulkVal (b : String) : Value := .mk "bulk" "" 0 b []

/-- Go composite literal `Value{typ: "null"}`. -/
def nullVal : Value := .mk "null" "" 0 "" []

/-- Go composite literal `Value{typ: "array", array: a}`. -/
def arrVal (a : List Value) : Value := .mk "array" "" 0 "" a

/-- Lookup in a Go `map` modelled as an association list. -/
def alookup {α : Type} (m : List (String × α)) (k : String) : Option α :=
  match m with
  | [] => none
  | (k', v) :: t => if k' = k then some v else alookup t k

/-- Assignment `m[k] = v` on a Go `map` modelled as an association list:
replaces the binding of `k` if present, otherwise appends it. -/
def ainsert {α : Type} (m : List (String × α)) (k : String) (v : α) :
    List (String × α) :=
  match m with
  | [] => [(k, v)]
  | (k', v') :: t => if k' = k then (k, v) :: t else (k', v') :: ainsert t k v

/-- Go `delete(m, k)` on a `map` modelled as an association list. -/
def aerase {α : Type} (m : List (String × α)) (k : String) :
    List (String × α) :=
  match m with
  | [] => []
  | (k', v') :: t => if k' = k then aerase t k else (k', v') :: aerase t k

/-- The string store map type (`SETs` in the Go source). -/
abbrev SMap := List (String × String)

/-- The hash store map type (`HSETs` in the Go source). -/
abbrev HMap := List (String × SMap)

/-- The expiration index map type (`Expirations` in the Go source). -/
abbrev EMap := List (String × Int)

/-- The three global stores of `internal/handler.go`, gathered in a record so
that each handler can thread them explicitly. -/
structure DB where
  SETs : SMap
  HSETs : HMap
  Expirations : EMap
deriving Repr, DecidableEq

/-- The empty keyspace (all three Go maps freshly allocated). -/
def emptyDB : DB := ⟨[], [], []⟩

/-- Largest signed 64-bit integer. -/
def maxInt64 : Int := 2 ^ 63 - 1

/-- Smallest signed 64-bit integer. -/
def minInt64 : Int := -(2 ^ 63)

/-- Reduction of an integer into the signed 64-bit range, i.e. the result of
Go's wrapping `int64` arithmetic. -/
def wrap64 (z : Int) : Int := (z + 2 ^ 63) % 2 ^ 64 - 2 ^ 63

/-- Accumulating decimal-digit scan used by the model of `strconv.ParseInt`:
`some` of the value if every character is an ASCII digit, `none` otherwise. -/
def parseDigits (l : List Char) (acc : Nat) : Option Nat :=
  match l with
  | [] => some acc
  | c :: t => if c.isDigit then parseDigits t (acc * 10 + (c.toNat - 48)) else none

/-- Unsigned branch of `strconv.ParseInt(s, 10, 64)`: digits only, value must
fit below `2 ^ 63` (Go reports `ErrRange` otherwise, which callers treat as an
error). -/
def parsePos (l : List Char) : Option Int :=
  if l = [] then none
  else
    match parseDigits l 0 with
    | none => none
    | some n => if (n : Int) ≤ maxInt64 then some (n : Int) else none

/-- Negative branch of `strconv.ParseInt(s, 10, 64)`: digits after a `-` sign,
magnitude at most `2 ^ 63`. -/
def parseNeg (l : List Char) : Option Int :=
  if l = [] then none
  else
    match parseDigits l 0 with
    | none => none
    | some n => if (n : Int) ≤ 2 ^ 63 then some (-(n : Int)) else none

/-- Model of Go `strconv.ParseInt(s, 10, 64)` (and of `strconv.Atoi` on a
64-bit platform): optional sign, at least one decimal digit, result within
the signed 64-bit range; `none` models a non-nil `err`. -/
def parseInt64 (s : String) : Option Int :=
  match s.toList with
  | [] => none
  | c :: t =>
    if c = '+' then parsePos t
    else if c = '-' then parseNeg t
    else parsePos (c :: t)

/-- Go `args[i].bulk`; handlers only index after checking `len(args)`. -/
def argBulk (args : List Value) (i : Nat) : String :=
  (args.getD i nullVal).bulk

/-- Model of Go `strings.ToLower` on the ASCII command vocabulary, defined
by structural recursion over the character data. -/
def toLowerStr (s : String) : String := String.mk (s.data.map Char.toLower)

/-- Model of Go `strings.ToUpper` on the ASCII command vocabulary, defined
by structural recursion over the character data. -/
def toUpperStr (s : String) : String := String.mk (s.data.map Char.toUpper)

/-- `ping` from `internal/handler.go`: no state access. -/
def ping (db : DB) (now : Int) (args : List Value) : DB × Value :=
  if args.length = 0 then (db, strVal "PONG")
  else (db, strVal (argBulk args 0))

/-- Tail of `checkAndDeleteIfExpired` after the expired-branch: consult
`SETs`, then `HSETs`, then fall back to `("", exists)` where `hadExp` is the
`exists` flag of the `Expirations` lookup. -/
def cadRest (db : DB) (hadExp : Bool) (key : String) : DB × String × Bool :=
  match alookup db.SETs key with
  | some value => (db, value, false)
  | none =>
    match alookup db.HSETs key with
    | some _ => (db, "", false)
    | none => (db, "", hadExp)

/-- `checkAndDeleteIfExpired` from `internal/handler.go`: if the key has an
expiration instant in the past it is deleted from all three stores and the
flag is `true`; otherwise the string value (or `""`) is returned together
with the confused fall-through flag of the original. -/
def checkAndDeleteIfExpired (db : DB) (now : Int) (key : String) :
    DB × String × Bool :=
  match alookup db.Expirations key with
  | some expireAt =>
    if now > expireAt then
      (⟨aerase db.SETs key, aerase db.HSETs key, aerase db.Expirations key⟩,
        "", true)
    else cadRest db true key
  | none => cadRest db false key

/-- Shared tail of `set`: store the value, then set or clear the expiration
depending on `expireSeconds`; the `int64` addition wraps. -/
def setStore (db : DB) (now : Int) (key value : String) (expireSeconds : Int) :
    DB × Value :=
  (⟨ainsert db.SETs key value, db.HSETs,
    if expireSeconds > 0 then
      ainsert db.Expirations key (wrap64 (now + expireSeconds))
    else aerase db.Expirations key⟩, strVal "OK")

/-- `set` from `internal/handler.go`: arity 2, or 4 with an `EX seconds`
suffix. -/
def set (db : DB) (now : Int) (args : List Value) : DB × Value :=
  if args.length < 2 then
    (db, errVal "ERR wrong number of arguments for 'set' command")
  else if args.length = 4 then
    if toLowerStr (argBulk args 2) ≠ "ex" then (db, errVal "ERR syntax error")
    else
      match parseInt64 (argBulk args 3) with
      | none => (db, errVal "ERR invalid expire time")
      | some secs =>
        if secs ≤ 0 then (db, errVal "ERR invalid expire time")
        else setStore db now (argBulk args 0) (argBulk args 1) secs
  else if args.length ≠ 2 then (db, errVal "ERR syntax error")
  else setStore db now (argBulk args 0) (argBulk args 1) 0

/-- `get` from `internal/handler.go`: lazy-expire check, then wrap whatever
string `checkAndDeleteIfExpired` produced in a Bulk unless the expired flag
was set. -/
def get (db : DB) (now : Int) (args : List Value) : DB × Value :=
  if args.length ≠ 1 then
    (db, errVal "ERR wrong number of arguments for 'get' command")
  else if (checkAndDeleteIfExpired db now (argBulk args 0)).2.2 then
    ((checkAndDeleteIfExpired db now (argBulk args 0)).1, nullVal)
  else
    ((checkAndDeleteIfExpired db now (argBulk args 0)).1,
      bulkVal (checkAndDeleteIfExpired db now (argBulk args 0)).2.1)

/-- `hset` from `internal/handler.go`: create the inner map if absent, then
assign the field. -/
def hset (db : DB) (now : Int) (args : List Value) : DB × Value :=
  if args.length ≠ 3 then
    (db, errVal "ERR wrong number of arguments for 'hset' command")
  else
    (⟨db.SETs,
      ainsert db.HSETs (argBulk args 0)
        (ainsert ((alookup db.HSETs (argBulk args 0)).getD [])
          (argBulk args 1) (argBulk args 2)),
      db.Expirations⟩, strVal "OK")

/-- `hget` from `internal/handler.go`: pure read of the hash store. -/
def hget (db : DB) (now : Int) (args : List Value) : DB × Value :=
  if args.length ≠ 2 then
    (db, errVal "ERR wrong number of arguments for 'hget' command")
  else
    match alookup db.HSETs (argBulk args 0) with
    | none => (db, nullVal)
    | some hashMap =>
      match alookup hashMap (argBulk args 1) with
      | none => (db, nullVal)
      | some value => (db, bulkVal value)

/-- `hgetall` from `internal/handler.go`: flat array of field, value pairs,
`Null` when the hash is absent. -/
def hgetall (db : DB) (now : Int) (args : List Value) : DB × Value :=
  if args.length ≠ 1 then
    (db, errVal "ERR wrong number of arguments for 'hgetall' command")
  else
    match alookup db.HSETs (argBulk args 0) with
    | none => (db, nullVal)
    | some hashMap =>
      (db, arrVal ((hashMap.map (fun p => [bulkVal p.1, bulkVal p.2])).flatten))

/-- `hdel` from `internal/handler.go`: remove the field, drop the hash when
it becomes empty, always answer `"OK"`. -/
def hdel (db : DB) (now : Int) (args : List Value) : DB × Value :=
  if args.length ≠ 2 then
    (db, errVal "ERR wrong number of arguments for 'hdel' command")
  else
    match alookup db.HSETs (argBulk args 0) with
    | none => (db, strVal "OK")
    | some m =>
      if aerase m (argBulk args 1) = [] then
        (⟨db.SETs, aerase db.HSETs (argBulk args 0), db.Expirations⟩,
          strVal "OK")
      else
        (⟨db.SETs,
          ainsert db.HSETs (argBulk args 0) (aerase m (argBulk args 1)),
          db.Expirations⟩, strVal "OK")

/-- `hlen` from `internal/handler.go`: number of fields, `0` if absent. -/
def hlen (db : DB) (now : Int) (args : List Value) : DB × Value :=
  if args.length ≠ 1 then
    (db, errVal "ERR wrong number of arguments for 'hlen' command")
  else
    match alookup db.HSETs (argBulk args 0) with
    | none => (db, intVal 0)
    | some hashMap => (db, intVal hashMap.length)

/-- `flushall` from `internal/handler.go`: clears all three stores; note
that the Go function never inspects `args`. -/
def flushall (db : DB) (now : Int) (args : List Value) : DB × Value :=
  (⟨[], [], []⟩, strVal "OK")

/-- `del` from `internal/handler.go`: removes the key from the string and
hash stores (the expiration index is not touched). -/
def del (db : DB) (now : Int) (args : List Value) : DB × Value :=
  if args.length ≠ 1 then
    (db, errVal "ERR wrong number of arguments for 'del' command")
  else
    (⟨aerase db.SETs (argBulk args 0), aerase db.HSETs (argBulk args 0),
      db.Expirations⟩, strVal "OK")

/-- `info` from `internal/handler.go`: aggregate counts rendered as a
multi-line Bulk. -/
def info (db : DB) (now : Int) (args : List Value) : DB × Value :=
  if args.length ≠ 0 then
    (db, errVal "ERR wrong number of arguments for 'info' command")
  else
    (db, bulkVal ("# Server Info\nkeys:" ++ toString db.SETs.length ++
      "\nhashes:" ++ toString db.HSETs.length ++
      "\nfields:" ++ toString (db.HSETs.map (fun p => p.2.length)).sum ++
      "\n"))

/-- `incr` from `internal/handler.go`: absent key seeds at `"1"`; otherwise
`strconv.Atoi`, wrapping `int64` increment, `strconv.Itoa` back. -/
def incr (db : DB) (now : Int) (args : List Value) : DB × Value :=
  if args.length ≠ 1 then
    (db, errVal "ERR wrong number of arguments for 'incr' command")
  else
    match alookup db.SETs (argBulk args 0) with
    | none =>
      (⟨ainsert db.SETs (argBulk args 0) "1", db.HSETs, db.Expirations⟩,
        intVal 1)
    | some value =>
      match parseInt64 value with
      | none => (db, errVal "ERR value is not an integer")
      | some num =>
        (⟨ainsert db.SETs (argBulk args 0) (toString (wrap64 (num + 1))),
          db.HSETs, db.Expirations⟩, intVal (wrap64 (num + 1)))

/-- `decr` from `internal/handler.go`: absent key seeds at `"0"`; otherwise
`strconv.Atoi`, wrapping `int64` decrement, `strconv.Itoa` back. -/
def decr (db : DB) (now : Int) (args : List Value) : DB × Value :=
  if args.length ≠ 1 then
    (db, errVal "ERR wrong number of arguments for 'decr' command")
  else
    match alookup db.SETs (argBulk args 0) with
    | none =>
      (⟨ainsert db.SETs (argBulk args 0) "0", db.HSETs, db.Expirations⟩,
        intVal 0)
    | some value =>
      match parseInt64 value with
      | none => (db, errVal "ERR value is not an integer")
      | some num =>
        (⟨ainsert db.SETs (argBulk args 0) (toString (wrap64 (num - 1))),
          db.HSETs, db.Expirations⟩, intVal (wrap64 (num - 1)))

/-- `expire` from `internal/handler.go`: parse the seconds, reject
non-positive values, then set an absolute expiry when the key exists in
either store; the `int64` addition wraps. -/
def expire (db : DB) (now : Int) (args : List Value) : DB × Value :=
  if args.length ≠ 2 then
    (db, errVal "ERR wrong number of arguments for 'expire' command")
  else
    match parseInt64 (argBulk args 1) with
    | none => (db, errVal "ERR invalid expire time")
    | some seconds =>
      if seconds ≤ 0 then (db, errVal "ERR invalid expire time")
      else
        if (alookup db.SETs (argBulk args 0)).isNone &&
            (alookup db.HSETs (argBulk args 0)).isNone then
          (db, intVal 0)
        else
          (⟨db.SETs, db.HSETs,
            ainsert db.Expirations (argBulk args 0) (wrap64 (now + seconds))⟩,
            intVal 1)

/-- `ttl` from `internal/handler.go`: `-2` when the key is in neither store,
`-1` when it has no expiration entry, otherwise the `int64` difference
`expireAt - now`, with negative remainders reported as `-2`. -/
def ttl (db : DB) (now : Int) (args : List Value) : DB × Value :=
  if args.length ≠ 1 then
    (db, errVal "ERR wrong number of arguments for 'ttl' command")
  else if (alookup db.SETs (argBulk args 0)).isNone &&
      (alookup db.HSETs (argBulk args 0)).isNone then
    (db, intVal (-2))
  else
    match alookup db.Expirations (argBulk args 0) with
    | none => (db, intVal (-1))
    | some expireAt =>
      if wrap64 (expireAt - now) < 0 then (db, intVal (-2))
      else (db, intVal (wrap64 (expireAt - now)))

/-- `persist` from `internal/handler.go`: clears the expiration entry of a
key present in either store. -/
def persist (db : DB) (now : Int) (args : List Value) : DB × Value :=
  if args.length ≠ 1 then
    (db, errVal "ERR wrong number of arguments for 'persist' command")
  else if (alookup db.SETs (argBulk args 0)).isNone &&
      (alookup db.HSETs (argBulk args 0)).isNone then
    (db, intVal 0)
  else
    match alookup db.Expirations (argBulk args 0) with
    | none => (db, intVal 0)
    | some _ =>
      (⟨db.SETs, db.HSETs, aerase db.Expirations (argBulk args 0)⟩, intVal 1)

/-- The `Handlers` routing table of `internal/handler.go`. -/
def Handlers : List (String × (DB → Int → List Value → DB × Value)) :=
  [("PING", ping), ("SET", set), ("GET", get), ("HSET", hset),
   ("HGET", hget), ("HGETALL", hgetall), ("HDEL", hdel), ("HLEN", hlen),
   ("FLUSHALL", flushall), ("DEL", del), ("INFO", info), ("INCR", incr),
   ("DECR", decr), ("EXPIRE", expire), ("TTL", ttl), ("PERSIST", persist)]

/-- The persistence allow-list test of `handleConnection` in
`internal/server.go`. -/
def shouldPersist (command : String) : Bool :=
  command = "SET" || command = "HSET" || command = "DEL" ||
  command = "FLUSHALL" || command = "HDEL" || command = "INCR" ||
  command = "DECR"

/-- State visible to one connection loop: the shared keyspace plus the
append-only log, modelled as the list of appended request Values. -/
structure ConnState where
  db : DB
  aof : List Value
deriving Repr

/-- One iteration of the `handleConnection` loop of `internal/server.go`:
validate the request shape, upper-case the command, look up the handler,
append to the log when the command is on the allow-list, then dispatch. -/
def processRequest (st : ConnState) (now : Int) (v : Value) :
    ConnState × Value :=
  if v.typ ≠ "array" ∨ v.array.length = 0 then (st, strVal "Invalid request")
  else
    match alookup Handlers (toUpperStr (v.array.getD 0 nullVal).bulk) with
    | none => (st, strVal "Unknown command")
    | some handler =>
      (⟨(handler st.db now (v.array.drop 1)).1,
        if shouldPersist (toUpperStr (v.array.getD 0 nullVal).bulk) then
          st.aof ++ [v]
        else st.aof⟩,
        (handler st.db now (v.array.drop 1)).2)

/-- One command-handler call, taken from the routing table, with arbitrary
clock and arguments. -/
inductive Step : DB → DB → Prop where
  | mk (name : String) (hdl : DB → Int → List Value → DB × Value)
      (now : Int) (args : List Value) (db : DB)
      (h : (name, hdl) ∈ Handlers) : Step db (hdl db now args).1

/-- Keyspace states reachable from the empty keyspace by command-handler
calls. -/
inductive Reachable : DB → Prop where
  | base : Reachable emptyDB
  | step {db db' : DB} : Reachable db → Step db db' → Reachable db'

/-- Every hash present in the hash store has at least one field. -/
def hashesNonEmpty (db : DB) : Prop := ∀ p ∈ db.HSETs, p.2 ≠ []

/-- A handler call that returns an Error Value and leaves the keyspace
untouched. -/
def errNoMut (f : DB → Int → List Value → DB × Value) (db : DB) (now : Int)
    (args : List Value) : Prop :=
  (f db now args).1 = db ∧ ((f db now args).2).typ = "error"

theorem alookup_ainsert_self {α : Type} (m : List (String × α)) (k : String)
    (v : α) : alookup (ainsert m k v) k = some v := by
  induction m with
  | nil => simp [ainsert, alookup]
  | cons p t ih =>
    obtain ⟨k', v'⟩ := p
    by_cases h : k' = k
    · simp [ainsert, h, alookup]
    · simp [ainsert, h, alookup, ih]

theorem alookup_ainsert_ne {α : Type} (m : List (String × α)) (k k' : String)
    (v : α) (h : k' ≠ k) : alookup (ainsert m k' v) k = alookup m k := by
  induction m with
  | nil => simp [ainsert, alookup, h]
  | cons p t ih =>
    obtain ⟨k₀, v₀⟩ := p
    by_cases h0 : k₀ = k'
    · simp [ainsert, h0, alookup, h]
    · simp only [ainsert, h0, if_false, alookup, ih]

theorem alookup_aerase_self {α : Type} (m : List (String × α)) (k : String) :
    alookup (aerase m k) k = none := by
  induction m with
  | nil => simp [aerase, alookup]
  | cons p t ih =>
    obtain ⟨k', v'⟩ := p
    by_cases h : k' = k
    · simp [aerase, h, ih]
    · simp [aerase, h, alookup, ih]

theorem ainsert_ne_nil {α : Type} (m : List (String × α)) (k : String)
    (v : α) : ainsert m k v ≠ [] := by
  cases m with
  | nil => simp [ainsert]
  | cons p t =>
    obtain ⟨k', v'⟩ := p
    by_cases h : k' = k <;> simp [ainsert, h]

theorem mem_ainsert {α : Type} {p : String × α} (m : List (String × α))
    (k : String) (v : α) : p ∈ ainsert m k v → p = (k, v) ∨ p ∈ m := by
  induction m with
  | nil => intro h; simpa [ainsert] using h
  | cons q t ih =>
    obtain ⟨k', v'⟩ := q
    intro h
    by_cases h0 : k' = k
    · simp only [ainsert, h0, if_true] at h
      rcases List.mem_cons.mp h with h | h
      · exact Or.inl h
      · exact Or.inr (List.mem_cons_of_mem _ h)
    · simp only [ainsert, h0, if_false] at h
      rcases List.mem_cons.mp h with h | h
      · exact Or.inr (by simp [h])
      · rcases ih h with h' | h'
        · exact Or.inl h'
        · exact Or.inr (List.mem_cons_of_mem _ h')

theorem mem_aerase {α : Type} {p : String × α} (m : List (String × α))
    (k : String) : p ∈ aerase m k → p ∈ m := by
  induction m with
  | nil => intro h; simpa [aerase] using h
  | cons q t ih =>
    obtain ⟨k', v'⟩ := q
    intro h
    by_cases h0 : k' = k
    · simp only [aerase, h0, if_true] at h
      exact List.mem_cons_of_mem _ (ih h)
    · simp only [aerase, h0, if_false] at h
      rcases List.mem_cons.mp h with h | h
      · simp [h]
      · exact List.mem_cons_of_mem _ (ih h)

theorem alookup_mem {α : Type} (m : List (String × α)) (k : String) (v : α) :
    alookup m k = some v → (k, v) ∈ m := by
  induction m with
  | nil => intro h; simp [alookup] at h
  | cons q t ih =>
    obtain ⟨k', v'⟩ := q
    intro h
    by_cases h0 : k' = k
    · simp only [alookup, h0, if_true, Option.some.injEq] at h
      simp [h0, h]
    · simp only [alookup, h0, if_false] at h
      exact List.mem_cons_of_mem _ (ih h)

theorem pow63 : (2 : Int) ^ 63 = 9223372036854775808 := by norm_num

theorem pow64 : (2 : Int) ^ 64 = 18446744073709551616 := by norm_num

theorem parsePos_range {l : List Char} {n : Int} (h : parsePos l = some n) :
    0 ≤ n ∧ n ≤ maxInt64 := by
  simp only [parsePos] at h
  split at h
  · cases h
  · split at h
    · cases h
    · split at h
      · rename_i m heq hb
        cases h
        exact ⟨Int.natCast_nonneg m, hb⟩
      · cases h

theorem parseNeg_range {l : List Char} {n : Int} (h : parseNeg l = some n) :
    minInt64 ≤ n ∧ n ≤ 0 := by
  simp only [parseNeg] at h
  split at h
  · cases h
  · split at h
    · cases h
    · split at h
      · rename_i m heq hb
        cases h
        have h0 : (0 : Int) ≤ (m : Int) := Int.natCast_nonneg m
        rw [pow63] at hb
        simp only [minInt64, pow63]
        omega
      · cases h

theorem parseInt64_range {s : String} {n : Int} (h : parseInt64 s = some n) :
    minInt64 ≤ n ∧ n ≤ maxInt64 := by
  have hmin : minInt64 ≤ (0 : Int) := by simp only [minInt64, pow63]; omega
  have hmax : (0 : Int) ≤ maxInt64 := by simp only [maxInt64, pow63]; omega
  simp only [parseInt64] at h
  split at h
  · cases h
  · split at h
    · have := parsePos_range h
      exact ⟨le_trans hmin this.1, this.2⟩
    · split at h
      · have := parseNeg_range h
        exact ⟨this.1, le_trans this.2 hmax⟩
      · have := parsePos_range h
        exact ⟨le_trans hmin this.1, this.2⟩

theorem wrap64_eq_self {z : Int} (h1 : minInt64 ≤ z) (h2 : z ≤ maxInt64) :
    wrap64 z = z := by
  rw [wrap64]
  simp only [minInt64, pow63] at h1
  simp only [maxInt64, pow63] at h2
  have hlo : 0 ≤ z + 2 ^ 63 := by rw [pow63]; omega
  have hhi : z + 2 ^ 63 < 2 ^ 64 := by rw [pow63, pow64]; omega
  rw [Int.emod_eq_of_lt hlo hhi, pow63]
  omega

theorem shouldPersist_iff (c : String) :
    shouldPersist c = true ↔
      c ∈ (["SET", "HSET", "DEL", "FLUSHALL", "HDEL", "INCR", "DECR"] :
        List String) := by
  simp only [shouldPersist, Bool.or_eq_true, decide_eq_true_eq,
    List.mem_cons, List.not_mem_nil, or_false]
  tauto

theorem hdel_found (db : DB) (n : Int) (hk f : String) (m : SMap)
    (hm : alookup db.HSETs hk = some m) (hnil : aerase m f = []) :
    hdel db n [bulkVal hk, bulkVal f] =
      (⟨db.SETs, aerase db.HSETs hk, db.Expirations⟩, strVal "OK") := by
  show (match alookup db.HSETs hk with
    | none => (db, strVal "OK")
    | some m =>
      if aerase m f = [] then
        (⟨db.SETs, aerase db.HSETs hk, db.Expirations⟩, strVal "OK")
      else
        (⟨db.SETs, ainsert db.HSETs hk (aerase m f), db.Expirations⟩,
          strVal "OK")) = _
  rw [hm]
  simp [hnil]

theorem hdel_ok (db : DB) (n : Int) (a b : Value) :
    (hdel db n [a, b]).2 = strVal "OK" := by
  unfold hdel
  split
  · rename_i hx
    exact absurd rfl hx
  · split
    · rfl
    · split <;> rfl

theorem hlen_none (db : DB) (n : Int) (hk : String)
    (hm : alookup db.HSETs hk = none) :
    hlen db n [bulkVal hk] = (db, intVal 0) := by
  show (match alookup db.HSETs hk with
    | none => (db, intVal 0)
    | some hashMap => (db, intVal hashMap.length)) = _
  rw [hm]

theorem hlen_some (db : DB) (n : Int) (hk : String) (m : SMap)
    (hm : alookup db.HSETs hk = some m) :
    hlen db n [bulkVal hk] = (db, intVal m.length) := by
  show (match alookup db.HSETs hk with
    | none => (db, intVal 0)
    | some hashMap => (db, intVal hashMap.length)) = _
  rw [hm]

theorem hgetall_none (db : DB) (n : Int) (hk : String)
    (hm : alookup db.HSETs hk = none) :
    hgetall db n [bulkVal hk] = (db, nullVal) := by
  show (match alookup db.HSETs hk with
    | none => (db, nullVal)
    | some hashMap =>
      (db, arrVal ((hashMap.map
        (fun p : String × String => [bulkVal p.1, bulkVal p.2])).flatten))) =
      _
  rw [hm]

theorem hgetall_some (db : DB) (n : Int) (hk : String) (m : SMap)
    (hm : alookup db.HSETs hk = some m) :
    hgetall db n [bulkVal hk] =
      (db, arrVal ((m.map
        (fun p : String × String => [bulkVal p.1, bulkVal p.2])).flatten)) := by
  show (match alookup db.HSETs hk with
    | none => (db, nullVal)
    | some hashMap =>
      (db, arrVal ((hashMap.map
        (fun p : String × String => [bulkVal p.1, bulkVal p.2])).flatten))) =
      _
  rw [hm]

/-- Claim C2: the claim asserts that `GET key` returns Null when the key has
no string-store entry and no past expiry; the code instead returns an empty
Bulk both for a key absent from all stores and for a key present only in the
hash store. This theorem evaluates `get` at both failing inputs, and records
that the result is a Bulk (`typ = "bulk"`), not the Null marker. -/
theorem get_absent_returns_empty_bulk :
    get emptyDB 0 [bulkVal "k"] = (emptyDB, bulkVal "") ∧
    get ⟨[], [("k", [("f", "v")])], []⟩ 0 [bulkVal "k"] =
      (⟨[], [("k", [("f", "v")])], []⟩, bulkVal "") ∧
    (bulkVal "").typ = "bulk" ∧ nullVal.typ = "null" ∧
    get ⟨[], [], [("k", 100)]⟩ 0 [bulkVal "k"] =
      (⟨[], [], [("k", 100)]⟩, nullVal) :=
  ⟨rfl, rfl, rfl, rfl, rfl⟩

/-- Claim C1 counterexample: `FLUSHALL` invoked with one argument does not
return an Error Value and does not leave the stores unchanged — it performs
its full flush and answers "OK". -/
theorem flushall_with_args_flushes :
    flushall ⟨[("a", "b")], [("h", [("f", "v")])], [("a", 7)]⟩ 0
        [bulkVal "x"] = (emptyDB, strVal "OK") ∧
    ((flushall ⟨[("a", "b")], [("h", [("f", "v")])], [("a", 7)]⟩ 0
        [bulkVal "x"]).2).typ ≠ "error" ∧
    (flushall ⟨[("a", "b")], [("h", [("f", "v")])], [("a", 7)]⟩ 0
        [bulkVal "x"]).1 ≠ ⟨[("a", "b")], [("h", [("f", "v")])], [("a", 7)]⟩ :=
  ⟨rfl, by decide, by decide⟩

/-- Claim C1 (amended): every handler other than PING and FLUSHALL returns
an Error Value and leaves all three stores unchanged when invoked with an
argument count outside its accepted arity; PING never errors and never
mutates, and FLUSHALL ignores its arguments entirely, clearing all three
stores and returning "OK". -/
theorem arity_frame_amended (db : DB) (now : Int) :
    (∀ args : List Value, args.length ≠ 2 → args.length ≠ 4 →
      errNoMut set db now args) ∧
    (∀ args : List Value, args.length ≠ 1 → errNoMut get db now args) ∧
    (∀ args : List Value, args.length ≠ 3 → errNoMut hset db now args) ∧
    (∀ args : List Value, args.length ≠ 2 → errNoMut hget db now args) ∧
    (∀ args : List Value, args.length ≠ 1 → errNoMut hgetall db now args) ∧
    (∀ args : List Value, args.length ≠ 2 → errNoMut hdel db now args) ∧
    (∀ args : List Value, args.length ≠ 1 → errNoMut hlen db now args) ∧
    (∀ args : List Value, args.length ≠ 1 → errNoMut del db now args) ∧
    (∀ args : List Value, args.length ≠ 0 → errNoMut info db now args) ∧
    (∀ args : List Value, args.length ≠ 1 → errNoMut incr db now args) ∧
    (∀ args : List Value, args.length ≠ 1 → errNoMut decr db now args) ∧
    (∀ args : List Value, args.length ≠ 2 → errNoMut expire db now args) ∧
    (∀ args : List Value, args.length ≠ 1 → errNoMut ttl db now args) ∧
    (∀ args : List Value, args.length ≠ 1 → errNoMut persist db now args) ∧
    (∀ args : List Value,
      (ping db now args).1 = db ∧ ((ping db now args).2).typ = "string") ∧
    (∀ args : List Value, flushall db now args = (emptyDB, strVal "OK")) := by
  refine ⟨?_, ?_, ?_, ?_, ?_, ?_, ?_, ?_, ?_, ?_, ?_, ?_, ?_, ?_, ?_, ?_⟩
  · intro args h2 h4
    unfold errNoMut set
    by_cases hlt : args.length < 2
    · rw [if_pos hlt]; exact ⟨rfl, rfl⟩
    · rw [if_neg hlt, if_neg h4, if_pos h2]; exact ⟨rfl, rfl⟩
  · intro args h1
    unfold errNoMut get
    rw [if_pos h1]; exact ⟨rfl, rfl⟩
  · intro args h1
    unfold errNoMut hset
    rw [if_pos h1]; exact ⟨rfl, rfl⟩
  · intro args h1
    unfold errNoMut hget
    rw [if_pos h1]; exact ⟨rfl, rfl⟩
  · intro args h1
    unfold errNoMut hgetall
    rw [if_pos h1]; exact ⟨rfl, rfl⟩
  · intro args h1
    unfold errNoMut hdel
    rw [if_pos h1]; exact ⟨rfl, rfl⟩
  · intro args h1
    unfold errNoMut hlen
    rw [if_pos h1]; exact ⟨rfl, rfl⟩
  · intro args h1
    unfold errNoMut del
    rw [if_pos h1]; exact ⟨rfl, rfl⟩
  · intro args h1
    unfold errNoMut info
    rw [if_pos h1]; exact ⟨rfl, rfl⟩
  · intro args h1
    unfold errNoMut incr
    rw [if_pos h1]; exact ⟨rfl, rfl⟩
  · intro args h1
    unfold errNoMut decr
    rw [if_pos h1]; exact ⟨rfl, rfl⟩
  · intro args h1
    unfold errNoMut expire
    rw [if_pos h1]; exact ⟨rfl, rfl⟩
  · intro args h1
    unfold errNoMut ttl
    rw [if_pos h1]; exact ⟨rfl, rfl⟩
  · intro args h1
    unfold errNoMut persist
    rw [if_pos h1]; exact ⟨rfl, rfl⟩
  · intro args
    unfold ping
    by_cases h0 : args.length = 0
    · rw [if_pos h0]; exact ⟨rfl, rfl⟩
    · rw [if_neg h0]; exact ⟨rfl, rfl⟩
  · intro args
    rfl

/-- Claim C1 witness: concrete invocations of the amended statement. -/
theorem arity_frame_amended_witness :
    errNoMut get ⟨[("a", "b")], [], []⟩ 0 [] ∧
    errNoMut set ⟨[("a", "b")], [], []⟩ 0 [bulkVal "k"] ∧
    errNoMut expire ⟨[("a", "b")], [], []⟩ 0 [bulkVal "k"] :=
  ⟨(arity_frame_amended ⟨[("a", "b")], [], []⟩ 0).2.1 [] (by decide),
   (arity_frame_amended ⟨[("a", "b")], [], []⟩ 0).1 [bulkVal "k"]
     (by decide) (by decide),
   (arity_frame_amended ⟨[("a", "b")], [], []⟩ 0).2.2.2.2.2.2.2.2.2.2.2.1
     [bulkVal "k"] (by decide)⟩

/-- Claim C3: a request dispatched by the connection loop is appended to the
persistence log if and only if its upper-cased command name is one of SET,
HSET, DEL, FLUSHALL, HDEL, INCR, DECR; in particular EXPIRE and PERSIST
requests leave the log unchanged. -/
theorem aof_allowlist (st : ConnState) (now : Int) (v : Value)
    (ht : v.typ = "array") (hn : v.array.length ≠ 0)
    (hh : (alookup Handlers
      (toUpperStr (v.array.getD 0 nullVal).bulk)).isSome = true) :
    ((processRequest st now v).1.aof = st.aof ++ [v] ↔
      toUpperStr (v.array.getD 0 nullVal).bulk ∈
        (["SET", "HSET", "DEL", "FLUSHALL", "HDEL", "INCR", "DECR"] :
          List String)) ∧
    ((toUpperStr (v.array.getD 0 nullVal).bulk = "EXPIRE" ∨
      toUpperStr (v.array.getD 0 nullVal).bulk = "PERSIST") →
      (processRequest st now v).1.aof = st.aof) := by
  have hcond : ¬(v.typ ≠ "array" ∨ v.array.length = 0) := by
    push_neg
    exact ⟨ht, hn⟩
  obtain ⟨hdl, hsome⟩ := Option.isSome_iff_exists.mp hh
  have heq : processRequest st now v =
      (⟨(hdl st.db now (v.array.drop 1)).1,
        if shouldPersist (toUpperStr (v.array.getD 0 nullVal).bulk) then
          st.aof ++ [v]
        else st.aof⟩,
        (hdl st.db now (v.array.drop 1)).2) := by
    unfold processRequest
    rw [if_neg hcond, hsome]
  rw [heq]
  constructor
  · by_cases hp :
      shouldPersist (toUpperStr (v.array.getD 0 nullVal).bulk) = true
    · rw [if_pos hp]
      exact ⟨fun _ => (shouldPersist_iff _).mp hp, fun _ => rfl⟩
    · rw [if_neg hp]
      constructor
      · intro habs
        have hl := congrArg List.length habs
        simp at hl
      · intro hmem
        exact absurd ((shouldPersist_iff _).mpr hmem) hp
  · intro hEP
    have hp : shouldPersist (toUpperStr (v.array.getD 0 nullVal).bulk) =
        false := by
      rcases hEP with h | h <;> rw [h] <;> rfl
    rw [hp]
    rfl

/-- Claim C3 witness: an EXPIRE request is recognized but not appended. -/
theorem aof_allowlist_witness :
    (processRequest ⟨emptyDB, []⟩ 0
      (arrVal [bulkVal "EXPIRE", bulkVal "k", bulkVal "10"])).1.aof = [] :=
  (aof_allowlist ⟨emptyDB, []⟩ 0
    (arrVal [bulkVal "EXPIRE", bulkVal "k", bulkVal "10"])
    rfl (by decide) (by decide)).2 (Or.inl (by decide))

/-- Claim C7: after `HSET hk f v` creating the hash `hk` with its only field
`f`, `HDEL hk f` removes `hk` entirely from the hash store; a subsequent
`HLEN hk` answers Integer 0 and `HGETALL hk` answers Null; moreover `HDEL`
always returns "OK" on two arguments, whether or not the hash or field
exists. -/
theorem hash_lifecycle (db : DB) (n1 n2 n3 n4 : Int) (hk f v : String)
    (habs : alookup db.HSETs hk = none) :
    (hdel (hset db n1 [bulkVal hk, bulkVal f, bulkVal v]).1 n2
      [bulkVal hk, bulkVal f]).2 = strVal "OK" ∧
    alookup ((hdel (hset db n1 [bulkVal hk, bulkVal f, bulkVal v]).1 n2
      [bulkVal hk, bulkVal f]).1).HSETs hk = none ∧
    hlen ((hdel (hset db n1 [bulkVal hk, bulkVal f, bulkVal v]).1 n2
        [bulkVal hk, bulkVal f]).1) n3 [bulkVal hk] =
      ((hdel (hset db n1 [bulkVal hk, bulkVal f, bulkVal v]).1 n2
        [bulkVal hk, bulkVal f]).1, intVal 0) ∧
    hgetall ((hdel (hset db n1 [bulkVal hk, bulkVal f, bulkVal v]).1 n2
        [bulkVal hk, bulkVal f]).1) n4 [bulkVal hk] =
      ((hdel (hset db n1 [bulkVal hk, bulkVal f, bulkVal v]).1 n2
        [bulkVal hk, bulkVal f]).1, nullVal) ∧
    (∀ (db' : DB) (n : Int) (a b : Value), (hdel db' n [a, b]).2 = strVal "OK") := by
  have e1 : (hset db n1 [bulkVal hk, bulkVal f, bulkVal v]).1 =
      ⟨db.SETs, ainsert db.HSETs hk [(f, v)], db.Expirations⟩ := by
    show (⟨db.SETs,
      ainsert db.HSETs hk
        (ainsert ((alookup db.HSETs hk).getD []) f v),
      db.Expirations⟩ : DB) = _
    rw [habs]
    rfl
  have e3 : aerase [(f, v)] f = [] := by simp [aerase]
  have e4 := hdel_found
    ⟨db.SETs, ainsert db.HSETs hk [(f, v)], db.Expirations⟩ n2 hk f
    [(f, v)] (alookup_ainsert_self _ _ _) e3
  rw [e1, e4]
  refine ⟨rfl, alookup_aerase_self _ _, ?_, ?_, fun db' n a b => hdel_ok db' n a b⟩
  · exact hlen_none _ n3 hk (alookup_aerase_self _ _)
  · exact hgetall_none _ n4 hk (alookup_aerase_self _ _)

/-- Claim C7 witness: the lifecycle at a concrete fresh hash. -/
theorem hash_lifecycle_witness :
    alookup ((hdel (hset ⟨[("x", "y")], [], []⟩ 0
      [bulkVal "h", bulkVal "f", bulkVal "v"]).1 0
      [bulkVal "h", bulkVal "f"]).1).HSETs "h" = none :=
  (hash_lifecycle ⟨[("x", "y")], [], []⟩ 0 0 0 0 "h" "f" "v" rfl).2.1

/-- Claim C9: the reply of each of HGET, HGETALL and HLEN depends only on
the hash store — two keyspaces agreeing on the hash store produce identical
replies at any two clock instants — and none of the three mutates the
keyspace (no lazy expiration on the hash read paths). -/
theorem hash_reads_only_hash_store (db1 db2 : DB) (n1 n2 : Int)
    (args : List Value) (h : db1.HSETs = db2.HSETs) :
    (hget db1 n1 args).2 = (hget db2 n2 args).2 ∧
    (hget db1 n1 args).1 = db1 ∧
    (hgetall db1 n1 args).2 = (hgetall db2 n2 args).2 ∧
    (hgetall db1 n1 args).1 = db1 ∧
    (hlen db1 n1 args).2 = (hlen db2 n2 args).2 ∧
    (hlen db1 n1 args).1 = db1 := by
  refine ⟨?_, ?_, ?_, ?_, ?_, ?_⟩
  · unfold hget
    rw [h]
    repeat' split
    all_goals rfl
  · unfold hget
    repeat' split
    all_goals rfl
  · unfold hgetall
    rw [h]
    repeat' split
    all_goals rfl
  · unfold hgetall
    repeat' split
    all_goals rfl
  · unfold hlen
    rw [h]
    repeat' split
    all_goals rfl
  · unfold hlen
    repeat' split
    all_goals rfl

theorem incr_eq (db : DB) (now : Int) (k : String) :
    incr db now [bulkVal k] =
      match alookup db.SETs k with
      | none =>
        (⟨ainsert db.SETs k "1", db.HSETs, db.Expirations⟩, intVal 1)
      | some value =>
        match parseInt64 value with
        | none => (db, errVal "ERR value is not an integer")
        | some num =>
          (⟨ainsert db.SETs k (toString (wrap64 (num + 1))), db.HSETs,
            db.Expirations⟩, intVal (wrap64 (num + 1))) := rfl

theorem decr_eq (db : DB) (now : Int) (k : String) :
    decr db now [bulkVal k] =
      match alookup db.SETs k with
      | none =>
        (⟨ainsert db.SETs k "0", db.HSETs, db.Expirations⟩, intVal 0)
      | some value =>
        match parseInt64 value with
        | none => (db, errVal "ERR value is not an integer")
        | some num =>
          (⟨ainsert db.SETs k (toString (wrap64 (num - 1))), db.HSETs,
            db.Expirations⟩, intVal (wrap64 (num - 1))) := rfl

theorem set2_eq (db : DB) (now : Int) (k v : String) :
    set db now [bulkVal k, bulkVal v] =
      (⟨ainsert db.SETs k v, db.HSETs, aerase db.Expirations k⟩,
        strVal "OK") := rfl

theorem set4_eq (db : DB) (now : Int) (k v ex : String) :
    set db now [bulkVal k, bulkVal v, bulkVal "EX", bulkVal ex] =
      match parseInt64 ex with
      | none => (db, errVal "ERR invalid expire time")
      | some secs =>
        if secs ≤ 0 then (db, errVal "ERR invalid expire time")
        else setStore db now k v secs := rfl

theorem expire_eq (db : DB) (now : Int) (k ex : String) :
    expire db now [bulkVal k, bulkVal ex] =
      match parseInt64 ex with
      | none => (db, errVal "ERR invalid expire time")
      | some seconds =>
        if seconds ≤ 0 then (db, errVal "ERR invalid expire time")
        else
          if (alookup db.SETs k).isNone && (alookup db.HSETs k).isNone then
            (db, intVal 0)
          else
            (⟨db.SETs, db.HSETs,
              ainsert db.Expirations k (wrap64 (now + seconds))⟩,
              intVal 1) := rfl

theorem ttl_eq (db : DB) (now : Int) (k : String) :
    ttl db now [bulkVal k] =
      if (alookup db.SETs k).isNone && (alookup db.HSETs k).isNone then
        (db, intVal (-2))
      else
        match alookup db.Expirations k with
        | none => (db, intVal (-1))
        | some expireAt =>
          if wrap64 (expireAt - now) < 0 then (db, intVal (-2))
          else (db, intVal (wrap64 (expireAt - now))) := rfl

theorem bothAbsent_false {db : DB} {k : String}
    (hpres : (alookup db.SETs k).isSome = true ∨
      (alookup db.HSETs k).isSome = true) :
    ((alookup db.SETs k).isNone && (alookup db.HSETs k).isNone) = false := by
  rcases hpres with hx | hx
  · rcases hy : alookup db.SETs k with _ | val
    · rw [hy] at hx; cases hx
    · simp [hy]
  · rcases hy : alookup db.HSETs k with _ | val
    · rw [hy] at hx; cases hx
    · simp [hy]

/-- Claim C9 witness: two keyspaces differing in string store and
expiration index but sharing the hash store. -/
theorem hash_reads_only_hash_store_witness :
    (hget ⟨[("x", "1")], [("h", [("f", "v")])], [("x", 5)]⟩ 0
      [bulkVal "h", bulkVal "f"]).2 =
    (hget ⟨[], [("h", [("f", "v")])], []⟩ 7 [bulkVal "h", bulkVal "f"]).2 :=
  (hash_reads_only_hash_store ⟨[("x", "1")], [("h", [("f", "v")])], [("x", 5)]⟩
    ⟨[], [("h", [("f", "v")])], []⟩ 0 7 [bulkVal "h", bulkVal "f"] rfl).1

theorem preserve_of_hsets_eq {db : DB} (hinv : hashesNonEmpty db) {x : DB}
    (h : x.HSETs = db.HSETs) : hashesNonEmpty x :=
  fun p hp => hinv p (h ▸ hp)

theorem ping_hsets (db : DB) (now : Int) (args : List Value) :
    (ping db now args).1.HSETs = db.HSETs := by
  unfold ping
  split <;> rfl

theorem set_hsets (db : DB) (now : Int) (args : List Value) :
    (set db now args).1.HSETs = db.HSETs := by
  unfold set setStore
  repeat' split
  all_goals rfl

theorem hget_hsets (db : DB) (now : Int) (args : List Value) :
    (hget db now args).1.HSETs = db.HSETs := by
  unfold hget
  repeat' split
  all_goals rfl

theorem hgetall_hsets (db : DB) (now : Int) (args : List Value) :
    (hgetall db now args).1.HSETs = db.HSETs := by
  unfold hgetall
  repeat' split
  all_goals rfl

theorem hlen_hsets (db : DB) (now : Int) (args : List Value) :
    (hlen db now args).1.HSETs = db.HSETs := by
  unfold hlen
  repeat' split
  all_goals rfl

theorem info_hsets (db : DB) (now : Int) (args : List Value) :
    (info db now args).1.HSETs = db.HSETs := by
  unfold info
  split <;> rfl

theorem incr_hsets (db : DB) (now : Int) (args : List Value) :
    (incr db now args).1.HSETs = db.HSETs := by
  unfold incr
  repeat' split
  all_goals rfl

theorem decr_hsets (db : DB) (now : Int) (args : List Value) :
    (decr db now args).1.HSETs = db.HSETs := by
  unfold decr
  repeat' split
  all_goals rfl

theorem expire_hsets (db : DB) (now : Int) (args : List Value) :
    (expire db now args).1.HSETs = db.HSETs := by
  unfold expire
  repeat' split
  all_goals rfl

theorem ttl_hsets (db : DB) (now : Int) (args : List Value) :
    (ttl db now args).1.HSETs = db.HSETs := by
  unfold ttl
  repeat' split
  all_goals rfl

theorem persist_hsets (db : DB) (now : Int) (args : List Value) :
    (persist db now args).1.HSETs = db.HSETs := by
  unfold persist
  repeat' split
  all_goals rfl

theorem cad_preserves (db : DB) (now : Int) (key : String)
    (hinv : hashesNonEmpty db) :
    hashesNonEmpty (checkAndDeleteIfExpired db now key).1 := by
  unfold checkAndDeleteIfExpired cadRest
  repeat' split
  all_goals
    first
    | exact hinv
    | exact fun p hp => hinv p (mem_aerase _ _ hp)

theorem get_preserves (db : DB) (now : Int) (args : List Value)
    (hinv : hashesNonEmpty db) : hashesNonEmpty (get db now args).1 := by
  unfold get
  split
  · exact hinv
  · split
    · exact cad_preserves db now (argBulk args 0) hinv
    · exact cad_preserves db now (argBulk args 0) hinv

theorem hset_preserves (db : DB) (now : Int) (args : List Value)
    (hinv : hashesNonEmpty db) : hashesNonEmpty (hset db now args).1 := by
  unfold hset
  split
  · exact hinv
  · intro p hp
    rcases mem_ainsert _ _ _ hp with h | h
    · rw [h]
      exact ainsert_ne_nil _ _ _
    · exact hinv p h

theorem hdel_preserves (db : DB) (now : Int) (args : List Value)
    (hinv : hashesNonEmpty db) : hashesNonEmpty (hdel db now args).1 := by
  unfold hdel
  split
  · exact hinv
  · split
    · exact hinv
    · split
      · exact fun p hp => hinv p (mem_aerase _ _ hp)
      · rename_i m hm hne
        intro p hp
        rcases mem_ainsert _ _ _ hp with h | h
        · rw [h]
          exact hne
        · exact hinv p h

theorem flushall_preserves (db : DB) (now : Int) (args : List Value) :
    hashesNonEmpty (flushall db now args).1 := by
  intro p hp
  cases hp

theorem del_preserves (db : DB) (now : Int) (args : List Value)
    (hinv : hashesNonEmpty db) : hashesNonEmpty (del db now args).1 := by
  unfold del
  split
  · exact hinv
  · exact fun p hp => hinv p (mem_aerase _ _ hp)

theorem step_preserves {db db' : DB} (hinv : hashesNonEmpty db)
    (hs : Step db db') : hashesNonEmpty db' := by
  rcases hs with ⟨name, hdl, now, args, db, hmem⟩
  simp only [Handlers, List.mem_cons, List.not_mem_nil, or_false,
    Prod.mk.injEq] at hmem
  rcases hmem with ⟨_, rfl⟩ | ⟨_, rfl⟩ | ⟨_, rfl⟩ | ⟨_, rfl⟩ | ⟨_, rfl⟩ |
    ⟨_, rfl⟩ | ⟨_, rfl⟩ | ⟨_, rfl⟩ | ⟨_, rfl⟩ | ⟨_, rfl⟩ | ⟨_, rfl⟩ |
    ⟨_, rfl⟩ | ⟨_, rfl⟩ | ⟨_, rfl⟩ | ⟨_, rfl⟩ | ⟨_, rfl⟩
  · exact preserve_of_hsets_eq hinv (ping_hsets _ _ _)
  · exact preserve_of_hsets_eq hinv (set_hsets _ _ _)
  · exact get_preserves _ _ _ hinv
  · exact hset_preserves _ _ _ hinv
  · exact preserve_of_hsets_eq hinv (hget_hsets _ _ _)
  · exact preserve_of_hsets_eq hinv (hgetall_hsets _ _ _)
  · exact hdel_preserves _ _ _ hinv
  · exact preserve_of_hsets_eq hinv (hlen_hsets _ _ _)
  · exact flushall_preserves _ _ _
  · exact del_preserves _ _ _ hinv
  · exact preserve_of_hsets_eq hinv (info_hsets _ _ _)
  · exact preserve_of_hsets_eq hinv (incr_hsets _ _ _)
  · exact preserve_of_hsets_eq hinv (decr_hsets _ _ _)
  · exact preserve_of_hsets_eq hinv (expire_hsets _ _ _)
  · exact preserve_of_hsets_eq hinv (ttl_hsets _ _ _)
  · exact preserve_of_hsets_eq hinv (persist_hsets _ _ _)

theorem reachable_hashesNonEmpty {db : DB} (hr : Reachable db) :
    hashesNonEmpty db := by
  induction hr with
  | base => intro p hp; cases hp
  | step hprev hstep ih => exact step_preserves ih hstep

/-- Claim C4 counterexample: INCR on a key holding the decimal
representation of `n = 2^63 - 1` does not return `n + 1`; the wrapping
`int64` increment returns `-2^63`. -/
theorem incr_overflow_wraps :
    incr ⟨[("k", "9223372036854775807")], [], []⟩ 0 [bulkVal "k"] =
      (⟨[("k", "-9223372036854775808")], [], []⟩,
        intVal (-9223372036854775808)) ∧
    (-9223372036854775808 : Int) ≠ 9223372036854775807 + 1 :=
  ⟨rfl, by decide⟩

/-- Claim C4 (amended): INCR on an absent key stores "1" and returns
Integer 1; DECR on an absent key stores "0" and returns Integer 0; on a key
whose stored value parses as the 64-bit integer `n`, INCR stores and
returns `n + 1` provided `n + 1` is still representable in a signed 64-bit
integer (at `n = 2^63 - 1` the value wraps), and symmetrically DECR stores
and returns `n - 1` provided `n - 1` is representable; on a stored value
that does not parse as a 64-bit integer both return an Error Value and
leave the stored value unchanged. -/
theorem incr_decr_amended (db : DB) (now : Int) (k s : String) (n : Int) :
    (alookup db.SETs k = none →
      incr db now [bulkVal k] =
        (⟨ainsert db.SETs k "1", db.HSETs, db.Expirations⟩, intVal 1)) ∧
    (alookup db.SETs k = none →
      decr db now [bulkVal k] =
        (⟨ainsert db.SETs k "0", db.HSETs, db.Expirations⟩, intVal 0)) ∧
    (alookup db.SETs k = some s → parseInt64 s = some n →
      n + 1 ≤ maxInt64 →
      incr db now [bulkVal k] =
        (⟨ainsert db.SETs k (toString (n + 1)), db.HSETs, db.Expirations⟩,
          intVal (n + 1))) ∧
    (alookup db.SETs k = some s → parseInt64 s = some n →
      minInt64 ≤ n - 1 →
      decr db now [bulkVal k] =
        (⟨ainsert db.SETs k (toString (n - 1)), db.HSETs, db.Expirations⟩,
          intVal (n - 1))) ∧
    (alookup db.SETs k = some s → parseInt64 s = none →
      incr db now [bulkVal k] = (db, errVal "ERR value is not an integer") ∧
      decr db now [bulkVal k] = (db, errVal "ERR value is not an integer")) := by
  refine ⟨?_, ?_, ?_, ?_, ?_⟩
  · intro h
    rw [incr_eq, h]
  · intro h
    rw [decr_eq, h]
  · intro hs hp hb
    have hr := parseInt64_range hp
    have hw : wrap64 (n + 1) = n + 1 :=
      wrap64_eq_self (by simp only [minInt64, pow63] at hr ⊢; omega) hb
    simp only [incr_eq, hs, hp, hw]
  · intro hs hp hb
    have hr := parseInt64_range hp
    have hw : wrap64 (n - 1) = n - 1 :=
      wrap64_eq_self hb (by simp only [maxInt64, pow63] at hr ⊢; omega)
    simp only [decr_eq, hs, hp, hw]
  · intro hs hp
    constructor
    · simp only [incr_eq, hs, hp]
    · simp only [decr_eq, hs, hp]

/-- Claim C4 witness: INCR and DECR on a key holding "41". -/
theorem incr_decr_amended_witness :
    incr ⟨[("k", "41")], [], []⟩ 0 [bulkVal "k"] =
      (⟨[("k", "42")], [], []⟩, intVal 42) ∧
    decr ⟨[("k", "41")], [], []⟩ 0 [bulkVal "k"] =
      (⟨[("k", "40")], [], []⟩, intVal 40) :=
  ⟨(incr_decr_amended ⟨[("k", "41")], [], []⟩ 0 "k" "41" 41).2.2.1
      rfl rfl (by decide),
   (incr_decr_amended ⟨[("k", "41")], [], []⟩ 0 "k" "41" 41).2.2.2.1
      rfl rfl (by decide)⟩

/-- Claim C5 counterexample: a successful `SET k v EX secs` with a huge
`secs` stores the wrapped 64-bit sum, not `now + secs`. -/
theorem set_ex_overflow_wraps :
    (set emptyDB 2 [bulkVal "k", bulkVal "v", bulkVal "EX",
      bulkVal "9223372036854775806"]).2 = strVal "OK" ∧
    alookup ((set emptyDB 2 [bulkVal "k", bulkVal "v", bulkVal "EX",
      bulkVal "9223372036854775806"]).1).Expirations "k" =
      some (-9223372036854775808) ∧
    (-9223372036854775808 : Int) ≠ 2 + 9223372036854775806 :=
  ⟨rfl, rfl, by decide⟩

/-- Claim C5 (amended): a successful `SET key val` with no EX option maps
`key` to `val` in the string store and removes any expiration entry of
`key`; a successful `SET key val EX secs` with `secs` parsing to the
positive 64-bit integer `s` maps `key` to `val` and sets the expiration
entry of `key` to the signed 64-bit (wraparound) sum of `now` and `s` —
which equals `now + s` whenever that sum is representable; in both cases
the hash store is unchanged. -/
theorem set_effects_amended (db : DB) (now : Int) (k v ex : String)
    (s : Int) :
    (alookup ((set db now [bulkVal k, bulkVal v]).1).SETs k = some v ∧
     alookup ((set db now [bulkVal k, bulkVal v]).1).Expirations k = none ∧
     ((set db now [bulkVal k, bulkVal v]).1).HSETs = db.HSETs ∧
     (set db now [bulkVal k, bulkVal v]).2 = strVal "OK") ∧
    (parseInt64 ex = some s → 0 < s →
      alookup ((set db now [bulkVal k, bulkVal v, bulkVal "EX",
        bulkVal ex]).1).SETs k = some v ∧
      alookup ((set db now [bulkVal k, bulkVal v, bulkVal "EX",
        bulkVal ex]).1).Expirations k = some (wrap64 (now + s)) ∧
      ((set db now [bulkVal k, bulkVal v, bulkVal "EX",
        bulkVal ex]).1).HSETs = db.HSETs ∧
      (set db now [bulkVal k, bulkVal v, bulkVal "EX", bulkVal ex]).2 =
        strVal "OK") := by
  constructor
  · rw [set2_eq]
    exact ⟨alookup_ainsert_self _ _ _, alookup_aerase_self _ _, rfl, rfl⟩
  · intro hp h0
    have heq : set db now [bulkVal k, bulkVal v, bulkVal "EX", bulkVal ex] =
        setStore db now k v s := by
      simp only [set4_eq, hp]
      rw [if_neg (not_le.mpr h0)]
    rw [heq]
    unfold setStore
    rw [if_pos h0]
    exact ⟨alookup_ainsert_self _ _ _, alookup_ainsert_self _ _ _, rfl, rfl⟩

/-- Claim C5 witness: `SET k v EX 5` at clock 100 yields expiry 105. -/
theorem set_effects_amended_witness :
    alookup ((set ⟨[], [], []⟩ 100 [bulkVal "k", bulkVal "v", bulkVal "EX",
      bulkVal "5"]).1).Expirations "k" = some 105 :=
  ((set_effects_amended ⟨[], [], []⟩ 100 "k" "v" "5" 5).2 rfl
    (by decide)).2.1

/-- Claim C6 counterexample: a wrapped expiry instant — reachable by a
single `SET k v EX 9223372036854775806` at clock 2, per the C5 behavior —
makes TTL at clock 3 return Integer 9223372036854775805, although the
expiry instant minus the current time is negative, where the claim demands
-2. -/
theorem ttl_overflow_returns_positive :
    (set emptyDB 2 [bulkVal "k", bulkVal "v", bulkVal "EX",
      bulkVal "9223372036854775806"]).1 =
      ⟨[("k", "v")], [], [("k", -9223372036854775808)]⟩ ∧
    ttl ⟨[("k", "v")], [], [("k", -9223372036854775808)]⟩ 3 [bulkVal "k"] =
      (⟨[("k", "v")], [], [("k", -9223372036854775808)]⟩,
        intVal 9223372036854775805) ∧
    (-9223372036854775808 : Int) - 3 < 0 ∧
    (9223372036854775805 : Int) ≠ -2 :=
  ⟨rfl, rfl, by decide, by decide⟩

/-- Claim C6 (amended): TTL answers Integer -2 when the key is absent from
both data stores (whatever the expiration index holds); Integer -1 when the
key is present but has no expiration entry; and, when the key is present
with expiration instant `e`, the code computes the wrapping signed 64-bit
difference of `e` and `now` — equal to `e - now` whenever that difference
is representable in int64 — returning it when non-negative and returning
-2 when the computed difference is negative. -/
theorem ttl_semantics_amended (db : DB) (now : Int) (k : String) (e : Int) :
    (alookup db.SETs k = none → alookup db.HSETs k = none →
      ttl db now [bulkVal k] = (db, intVal (-2))) ∧
    (((alookup db.SETs k).isSome = true ∨
      (alookup db.HSETs k).isSome = true) →
      (alookup db.Expirations k = none →
        ttl db now [bulkVal k] = (db, intVal (-1))) ∧
      (alookup db.Expirations k = some e →
        (0 ≤ wrap64 (e - now) →
          ttl db now [bulkVal k] = (db, intVal (wrap64 (e - now)))) ∧
        (wrap64 (e - now) < 0 →
          ttl db now [bulkVal k] = (db, intVal (-2))) ∧
        (minInt64 ≤ e - now → e - now ≤ maxInt64 →
          wrap64 (e - now) = e - now))) := by
  refine ⟨?_, ?_⟩
  · intro hs hh
    rw [ttl_eq, hs, hh]
    rfl
  · intro hpres
    have hc := bothAbsent_false hpres
    constructor
    · intro hexp
      rw [ttl_eq, hc, hexp]
      rfl
    · intro hexp
      refine ⟨?_, ?_, ?_⟩
      · intro hge
        rw [ttl_eq, hc, hexp]
        show (if wrap64 (e - now) < 0 then (db, intVal (-2))
          else (db, intVal (wrap64 (e - now)))) = _
        rw [if_neg (not_lt.mpr hge)]
      · intro hlt
        rw [ttl_eq, hc, hexp]
        show (if wrap64 (e - now) < 0 then (db, intVal (-2))
          else (db, intVal (wrap64 (e - now)))) = _
        rw [if_pos hlt]
      · intro hlo hhi
        exact wrap64_eq_self hlo hhi

/-- Claim C6 witness: the four TTL answers at concrete keyspaces. -/
theorem ttl_semantics_amended_witness :
    ttl ⟨[("k", "v")], [], [("k", 10)]⟩ 3 [bulkVal "k"] =
      (⟨[("k", "v")], [], [("k", 10)]⟩, intVal 7) ∧
    ttl ⟨[("k", "v")], [], [("k", 1)]⟩ 3 [bulkVal "k"] =
      (⟨[("k", "v")], [], [("k", 1)]⟩, intVal (-2)) ∧
    ttl ⟨[("k", "v")], [], []⟩ 3 [bulkVal "k"] =
      (⟨[("k", "v")], [], []⟩, intVal (-1)) ∧
    ttl emptyDB 3 [bulkVal "k"] = (emptyDB, intVal (-2)) := by
  refine ⟨?_, ?_, ?_, ?_⟩
  · exact (((ttl_semantics_amended ⟨[("k", "v")], [], [("k", 10)]⟩ 3
      "k" 10).2 (Or.inl rfl)).2 rfl).1 (by decide)
  · exact (((ttl_semantics_amended ⟨[("k", "v")], [], [("k", 1)]⟩ 3
      "k" 1).2 (Or.inl rfl)).2 rfl).2.1 (by decide)
  · exact ((ttl_semantics_amended ⟨[("k", "v")], [], []⟩ 3 "k" 0).2
      (Or.inl rfl)).1 rfl
  · exact (ttl_semantics_amended emptyDB 3 "k" 0).1 rfl rfl

/-- Claim C8 counterexample: EXPIRE on an existing key with a huge positive
seconds value returns Integer 1 but stores the wrapped 64-bit sum rather
than `now + secs`. -/
theorem expire_overflow_wraps :
    expire ⟨[("k", "v")], [], []⟩ 3 [bulkVal "k",
      bulkVal "9223372036854775805"] =
      (⟨[("k", "v")], [], [("k", -9223372036854775808)]⟩, intVal 1) ∧
    (-9223372036854775808 : Int) ≠ 3 + 9223372036854775805 :=
  ⟨rfl, by decide⟩

/-- Claim C8 (amended): `EXPIRE key secs` with `secs` parsing to a positive
64-bit integer `s` returns Integer 1 and sets the expiration entry of `key`
to the signed 64-bit (wraparound) sum of `now` and `s` — equal to
`now + s` whenever representable — when the key exists in either store, and
returns Integer 0 leaving the whole keyspace unchanged when it exists in
neither; a `secs` that does not parse as a 64-bit integer, or parses to a
non-positive value, yields an Error Value with no state change. -/
theorem expire_effects_amended (db : DB) (now : Int) (k ex : String)
    (s : Int) :
    (parseInt64 ex = some s → 0 < s →
      (((alookup db.SETs k).isSome = true ∨
        (alookup db.HSETs k).isSome = true) →
        expire db now [bulkVal k, bulkVal ex] =
          (⟨db.SETs, db.HSETs,
            ainsert db.Expirations k (wrap64 (now + s))⟩, intVal 1)) ∧
      (alookup db.SETs k = none → alookup db.HSETs k = none →
        expire db now [bulkVal k, bulkVal ex] = (db, intVal 0))) ∧
    (parseInt64 ex = none →
      expire db now [bulkVal k, bulkVal ex] =
        (db, errVal "ERR invalid expire time")) ∧
    (parseInt64 ex = some s → s ≤ 0 →
      expire db now [bulkVal k, bulkVal ex] =
        (db, errVal "ERR invalid expire time")) := by
  refine ⟨?_, ?_, ?_⟩
  · intro hp h0
    constructor
    · intro hpres
      have hc := bothAbsent_false hpres
      simp only [expire_eq, hp]
      rw [if_neg (not_le.mpr h0), hc]
      rfl
    · intro hs hh
      simp only [expire_eq, hp]
      rw [if_neg (not_le.mpr h0), hs, hh]
      rfl
  · intro hp
    simp only [expire_eq, hp]
  · intro hp hle
    simp only [expire_eq, hp]
    rw [if_pos hle]

/-- Claim C8 witness: EXPIRE on a present key with secs 5 at clock 100, and
on an absent key. -/
theorem expire_effects_amended_witness :
    expire ⟨[("k", "v")], [], []⟩ 100 [bulkVal "k", bulkVal "5"] =
      (⟨[("k", "v")], [], [("k", 105)]⟩, intVal 1) ∧
    expire emptyDB 100 [bulkVal "k", bulkVal "5"] = (emptyDB, intVal 0) :=
  ⟨((expire_effects_amended ⟨[("k", "v")], [], []⟩ 100 "k" "5" 5).1 rfl
      (by decide)).1 (Or.inl rfl),
   ((expire_effects_amended emptyDB 100 "k" "5" 5).1 rfl
      (by decide)).2 rfl rfl⟩

/-- Claim C10: in every state reachable from the empty keyspace by
command-handler calls, every hash present in the hash store has at least
one field; consequently HLEN on a present hash returns a positive Integer
and HGETALL on a present hash returns a non-empty Array. -/
theorem reachable_hash_nonempty (db : DB) (n1 n2 : Int) (hk : String)
    (m : SMap) (hr : Reachable db) (hm : alookup db.HSETs hk = some m) :
    m ≠ [] ∧
    hlen db n1 [bulkVal hk] = (db, intVal m.length) ∧ 0 < m.length ∧
    hgetall db n2 [bulkVal hk] =
      (db, arrVal ((m.map
        (fun p : String × String => [bulkVal p.1, bulkVal p.2])).flatten)) ∧
    (m.map
      (fun p : String × String => [bulkVal p.1, bulkVal p.2])).flatten ≠
      [] := by
  have hne : m ≠ [] :=
    reachable_hashesNonEmpty hr (hk, m) (alookup_mem _ _ _ hm)
  refine ⟨hne, hlen_some db n1 hk m hm, List.length_pos.mpr hne,
    hgetall_some db n2 hk m hm, ?_⟩
  rcases m with _ | ⟨p, t⟩
  · exact absurd rfl hne
  · simp

/-- Claim C10 witness: the keyspace reached by one HSET from empty. -/
theorem reachable_hash_nonempty_witness :
    ([("f", "v")] : SMap) ≠ [] ∧
    hlen ⟨[], [("h", [("f", "v")])], []⟩ 0 [bulkVal "h"] =
      (⟨[], [("h", [("f", "v")])], []⟩, intVal 1) ∧
    0 < ([("f", "v")] : SMap).length ∧
    hgetall ⟨[], [("h", [("f", "v")])], []⟩ 0 [bulkVal "h"] =
      (⟨[], [("h", [("f", "v")])], []⟩,
        arrVal [bulkVal "f", bulkVal "v"]) ∧
    ([bulkVal "f", bulkVal "v"] : List Value) ≠ [] :=
  reachable_hash_nonempty ⟨[], [("h", [("f", "v")])], []⟩ 0 0 "h"
    [("f", "v")]
    (Reachable.step Reachable.base
      (Step.mk "HSET" hset 0 [bulkVal "h", bulkVal "f", bulkVal "v"]
        emptyDB (by simp [Handlers])))
    rfl

end GoKV
